import Mathlib

set_option maxRecDepth 8000

/-!
Verification of the git-gemini-cli core against its specification.

Go strings are modelled as lists of characters (GoStr).  Effectful Go code
(subprocess execution, filesystem access, environment variables) is embedded
by passing the ambient state explicitly: the process environment becomes a
list parameter, the filesystem becomes a path-indexed map, and the external
git binary becomes a function parameter from argument vectors to outcomes.
-/

abbrev GoStr := List Char

/-- The single-quote character, written via its code point. -/
def squoteChar : Char := Char.ofNat 39

/-- The backslash character, written via its code point. -/
def backslashChar : Char := Char.ofNat 92

/-- Models Go strings.ReplaceAll for a single-character pattern: every
occurrence of the character c in s is replaced by the list repl. -/
def replaceAllChar (s : GoStr) (c : Char) (repl : GoStr) : GoStr :=
  match s with
  | [] => []
  | a :: as =>
    if a = c then repl ++ replaceAllChar as c repl else a :: replaceAllChar as c repl

/-- Source part_004 lines 61-64, adapters.quotePathForShell: wraps the path in
single quotes and replaces every embedded single quote by the four-character
sequence quote backslash quote quote (the Go literal is a quote, an escaped
backslash, and two quotes). -/
def quotePathForShell (path : GoStr) : GoStr :=
  [squoteChar]
    ++ replaceAllChar path squoteChar [squoteChar, backslashChar, squoteChar, squoteChar]
    ++ [squoteChar]

/-- Source part_004 lines 19-24, adapters.LocalGitAdapter. -/
structure LocalGitAdapter where
  LocalPath : GoStr
  SSHKeyPath : GoStr
  BaseBranch : GoStr
  InsecureSkipHostKeyCheck : Bool

/-- Models Go strings.Join with a single-space separator. -/
def joinSpace : List GoStr → GoStr
  | [] => []
  | [x] => x
  | x :: y :: xs => x ++ ' ' :: joinSpace (y :: xs)

/-- Source part_004 lines 78-82: the argument vector sshCmdParts from which
getEnvWithSSH builds the GIT_SSH_COMMAND value. -/
def sshCommandParts (ga : LocalGitAdapter) : List GoStr :=
  ["ssh".data, "-i".data, quotePathForShell ga.SSHKeyPath, "-F".data, "/dev/null".data]
    ++ (if ga.InsecureSkipHostKeyCheck then ["-o".data, "StrictHostKeyChecking=no".data] else [])

/-- Source part_004 line 85: the GIT_SSH_COMMAND value, the parts joined by
single spaces. -/
def sshCommand (ga : LocalGitAdapter) : GoStr := joinSpace (sshCommandParts ga)

/-- Source part_004 lines 68-92, adapters.getEnvWithSSH.  The ambient process
environment os.Environ() is passed explicitly as env; each element is one
KEY=VALUE entry. -/
def getEnvWithSSH (ga : LocalGitAdapter) (env : List GoStr) : List GoStr :=
  if ga.SSHKeyPath = [] then env
  else env ++ ["GIT_SSH_COMMAND=".data ++ sshCommand ga]

/-! A POSIX-shell-compatible tokenizer, used to state the injection-safety
property of quotePathForShell.  It covers the constructs a POSIX shell
applies to a command string during field splitting and quote removal that
are reachable from GIT_SSH_COMMAND values: splitting on blanks, single
quoting (everything literal up to the closing quote), and backslash escaping
of the next character outside quotes. -/

/-- Tokenizer mode: outside quotes, inside single quotes, or immediately
after an escaping backslash. -/
inductive ShMode
  | norm
  | squote
  | esc
deriving DecidableEq

/-- Modelled from the spec: a POSIX-shell-compatible tokenizer.  Arguments:
mode, whether a token is in progress, the reversed accumulator of the token
in progress, and the remaining input.  Unterminated quotes or escapes at end
of input flush the accumulated token. -/
def shTokenizeAux : ShMode → Bool → GoStr → GoStr → List GoStr
  | .norm, started, acc, [] => if started then [acc.reverse] else []
  | .norm, started, acc, c :: rest =>
    if c = ' ' ∨ c = Char.ofNat 9 ∨ c = Char.ofNat 10 then
      if started then acc.reverse :: shTokenizeAux .norm false [] rest
      else shTokenizeAux .norm false [] rest
    else if c = squoteChar then shTokenizeAux .squote true acc rest
    else if c = backslashChar then shTokenizeAux .esc true acc rest
    else shTokenizeAux .norm true (c :: acc) rest
  | .squote, _, acc, [] => [acc.reverse]
  | .squote, _, acc, c :: rest =>
    if c = squoteChar then shTokenizeAux .norm true acc rest
    else shTokenizeAux .squote true (c :: acc) rest
  | .esc, _, acc, [] => [acc.reverse]
  | .esc, _, acc, c :: rest => shTokenizeAux .norm true (c :: acc) rest

/-- Tokenize a whole command string from the initial state. -/
def shTokenize (s : GoStr) : List GoStr := shTokenizeAux .norm false [] s

/-- A character that the tokenizer treats literally in normal mode. -/
def shPlainChar (c : Char) : Prop :=
  ¬(c = ' ' ∨ c = Char.ofNat 9 ∨ c = Char.ofNat 10) ∧ c ≠ squoteChar ∧ c ≠ backslashChar

instance (c : Char) : Decidable (shPlainChar c) := by
  unfold shPlainChar; infer_instance

example : shTokenize "ssh -i key".data = ["ssh".data, "-i".data, "key".data] := by decide

example :
    shTokenize (quotePathForShell ['a', squoteChar, 'b']) = [['a', squoteChar, 'b']] := by
  decide

/-! Stepping lemmas for the tokenizer. -/

theorem shTok_norm_plain (c : Char) (hc : shPlainChar c) (acc rest : GoStr) :
    shTokenizeAux .norm true acc (c :: rest) = shTokenizeAux .norm true (c :: acc) rest := by
  obtain ⟨h1, h2, h3⟩ := hc
  simp only [shTokenizeAux, if_neg h1, if_neg h2, if_neg h3]

theorem shTok_norm_plain_run (w : GoStr) (hw : ∀ c ∈ w, shPlainChar c) (acc rest : GoStr) :
    shTokenizeAux .norm true acc (w ++ rest) = shTokenizeAux .norm true (w.reverse ++ acc) rest := by
  induction w generalizing acc with
  | nil => simp
  | cons c cs ih =>
    rw [List.cons_append, shTok_norm_plain c (hw c (by simp)) acc (cs ++ rest),
      ih (fun d hd => hw d (by simp [hd]))]
    simp

theorem shTok_norm_blank (acc rest : GoStr) :
    shTokenizeAux .norm true acc (' ' :: rest) = acc.reverse :: shTokenizeAux .norm false [] rest := by
  simp [shTokenizeAux]

theorem shTok_norm_quote (b : Bool) (acc rest : GoStr) :
    shTokenizeAux .norm b acc (squoteChar :: rest) = shTokenizeAux .squote true acc rest := by
  have h1 : ¬(squoteChar = ' ' ∨ squoteChar = Char.ofNat 9 ∨ squoteChar = Char.ofNat 10) := by decide
  simp only [shTokenizeAux, if_neg h1]
  simp

theorem shTok_norm_backslash (acc rest : GoStr) :
    shTokenizeAux .norm true acc (backslashChar :: rest) = shTokenizeAux .esc true acc rest := by
  have h1 : ¬(backslashChar = ' ' ∨ backslashChar = Char.ofNat 9 ∨ backslashChar = Char.ofNat 10) := by
    decide
  have h2 : backslashChar ≠ squoteChar := by decide
  simp only [shTokenizeAux, if_neg h1, if_neg h2]
  simp

theorem shTok_squote_quote (acc rest : GoStr) :
    shTokenizeAux .squote true acc (squoteChar :: rest) = shTokenizeAux .norm true acc rest := by
  simp only [shTokenizeAux]
  simp

theorem shTok_squote_other (c : Char) (hc : c ≠ squoteChar) (acc rest : GoStr) :
    shTokenizeAux .squote true acc (c :: rest) = shTokenizeAux .squote true (c :: acc) rest := by
  simp only [shTokenizeAux, if_neg hc]

theorem shTok_esc_step (c : Char) (acc rest : GoStr) :
    shTokenizeAux .esc true acc (c :: rest) = shTokenizeAux .norm true (c :: acc) rest := by
  simp only [shTokenizeAux]

/-- Consuming the escaped body of a quoted path inside single-quote mode
accumulates exactly the original characters, leaving the input after the
closing quote in normal mode. -/
theorem shTok_squote_body (cs : GoStr) (acc rest : GoStr) :
    shTokenizeAux .squote true acc
        (replaceAllChar cs squoteChar [squoteChar, backslashChar, squoteChar, squoteChar]
          ++ squoteChar :: rest)
      = shTokenizeAux .norm true (cs.reverse ++ acc) rest := by
  induction cs generalizing acc with
  | nil => simp [replaceAllChar, shTok_squote_quote]
  | cons c cs ih =>
    by_cases hc : c = squoteChar
    · subst hc
      have hrw : replaceAllChar (squoteChar :: cs) squoteChar
            [squoteChar, backslashChar, squoteChar, squoteChar]
          = squoteChar :: backslashChar :: squoteChar :: squoteChar ::
              replaceAllChar cs squoteChar [squoteChar, backslashChar, squoteChar, squoteChar] := by
        simp [replaceAllChar]
      rw [hrw]
      simp only [List.cons_append]
      rw [shTok_squote_quote, shTok_norm_backslash, shTok_esc_step, shTok_norm_quote, ih]
      simp
    · simp only [replaceAllChar, if_neg hc, List.cons_append]
      rw [shTok_squote_other c hc, ih]
      simp

/-- Tokenizing a quoted path followed by a blank yields exactly one token,
equal to the original path. -/
theorem shTok_quoted_token (path : GoStr) (rest : GoStr) :
    shTokenizeAux .norm false [] (quotePathForShell path ++ ' ' :: rest)
      = path :: shTokenizeAux .norm false [] rest := by
  have hq : quotePathForShell path ++ ' ' :: rest
      = squoteChar ::
          (replaceAllChar path squoteChar [squoteChar, backslashChar, squoteChar, squoteChar]
            ++ squoteChar :: (' ' :: rest)) := by
    simp [quotePathForShell]
  rw [hq, shTok_norm_quote, shTok_squote_body, shTok_norm_blank]
  simp

/-- Tokenizing a plain word followed by a blank emits that word as one token. -/
theorem shTok_word (w : GoStr) (hne : w ≠ []) (hw : ∀ c ∈ w, shPlainChar c) (rest : GoStr) :
    shTokenizeAux .norm false [] (w ++ ' ' :: rest)
      = w :: shTokenizeAux .norm false [] rest := by
  match w, hne with
  | c :: cs, _ =>
    have hcp := hw c (by simp)
    obtain ⟨h1, h2, h3⟩ := hcp
    rw [List.cons_append]
    show shTokenizeAux .norm false [] (c :: (cs ++ ' ' :: rest)) = _
    have hstep : shTokenizeAux .norm false [] (c :: (cs ++ ' ' :: rest))
        = shTokenizeAux .norm true [c] (cs ++ ' ' :: rest) := by
      simp only [shTokenizeAux, if_neg h1, if_neg h2, if_neg h3]
    rw [hstep, shTok_norm_plain_run cs (fun d hd => hw d (by simp [hd])), shTok_norm_blank]
    simp

/-- Tokenizing a final plain word emits it as the last token. -/
theorem shTok_last_word (w : GoStr) (hne : w ≠ []) (hw : ∀ c ∈ w, shPlainChar c) :
    shTokenizeAux .norm false [] w = [w] := by
  match w, hne with
  | c :: cs, _ =>
    obtain ⟨h1, h2, h3⟩ := hw c (by simp)
    have hstep : shTokenizeAux .norm false [] (c :: cs)
        = shTokenizeAux .norm true [c] cs := by
      simp only [shTokenizeAux, if_neg h1, if_neg h2, if_neg h3]
    have hrun := shTok_norm_plain_run cs (fun d hd => hw d (by simp [hd])) [c] []
    rw [hstep, ← List.append_nil cs, hrun]
    simp [shTokenizeAux]

/-- quotePathForShell always begins with the opening single quote. -/
theorem quotePathForShell_cons (p : GoStr) :
    quotePathForShell p
      = squoteChar ::
          (replaceAllChar p squoteChar [squoteChar, backslashChar, squoteChar, squoteChar]
            ++ [squoteChar]) := by
  simp [quotePathForShell]

/-- The GIT_SSH_COMMAND value without the host-key option, written as the
word-by-word concatenation joinSpace produces. -/
theorem sshCommand_eq_false (ga : LocalGitAdapter) (h : ga.InsecureSkipHostKeyCheck = false) :
    sshCommand ga
      = "ssh".data ++ ' ' :: ("-i".data ++ ' ' ::
          (quotePathForShell ga.SSHKeyPath ++ ' ' :: ("-F".data ++ ' ' :: "/dev/null".data))) := by
  simp [sshCommand, sshCommandParts, joinSpace, h]

/-- The GIT_SSH_COMMAND value with the host-key option appended. -/
theorem sshCommand_eq_true (ga : LocalGitAdapter) (h : ga.InsecureSkipHostKeyCheck = true) :
    sshCommand ga
      = "ssh".data ++ ' ' :: ("-i".data ++ ' ' ::
          (quotePathForShell ga.SSHKeyPath ++ ' ' :: ("-F".data ++ ' ' ::
            ("/dev/null".data ++ ' ' ::
              ("-o".data ++ ' ' :: "StrictHostKeyChecking=no".data))))) := by
  simp [sshCommand, sshCommandParts, joinSpace, h]

/-- C1: for every SSH key path string, including paths containing single
quotes, the GIT_SSH_COMMAND value built by getEnvWithSSH via
quotePathForShell tokenizes under a POSIX-shell-compatible tokenizer to
exactly the intended argument vector, with the key path as one single token
equal to the original path — no embedded quote can terminate the quoting
and inject additional shell tokens. -/
theorem c1_shell_quoting_injection_safe (ga : LocalGitAdapter) (env : List GoStr) :
    shTokenize (sshCommand ga)
      = ["ssh".data, "-i".data, ga.SSHKeyPath, "-F".data, "/dev/null".data]
          ++ (if ga.InsecureSkipHostKeyCheck then
                ["-o".data, "StrictHostKeyChecking=no".data]
              else [])
    ∧ (ga.SSHKeyPath ≠ [] →
        getEnvWithSSH ga env = env ++ ["GIT_SSH_COMMAND=".data ++ sshCommand ga]) := by
  constructor
  · cases hflag : ga.InsecureSkipHostKeyCheck
    · rw [shTokenize, sshCommand_eq_false ga hflag,
        shTok_word "ssh".data (by decide) (by decide),
        shTok_word "-i".data (by decide) (by decide),
        shTok_quoted_token,
        shTok_word "-F".data (by decide) (by decide),
        shTok_last_word "/dev/null".data (by decide) (by decide)]
      simp [hflag]
    · rw [shTokenize, sshCommand_eq_true ga hflag,
        shTok_word "ssh".data (by decide) (by decide),
        shTok_word "-i".data (by decide) (by decide),
        shTok_quoted_token,
        shTok_word "-F".data (by decide) (by decide),
        shTok_word "/dev/null".data (by decide) (by decide),
        shTok_word "-o".data (by decide) (by decide),
        shTok_last_word "StrictHostKeyChecking=no".data (by decide) (by decide)]
      simp [hflag]
  · intro h
    simp [getEnvWithSSH, h]

/-- Witness for C1 at a key path that contains a single quote. -/
theorem c1_shell_quoting_injection_safe_witness :
    shTokenize (sshCommand ⟨"/tmp/repo".data, ['k', squoteChar, 'y'], "main".data, false⟩)
        = ["ssh".data, "-i".data, ['k', squoteChar, 'y'], "-F".data, "/dev/null".data]
    ∧ getEnvWithSSH ⟨"/tmp/repo".data, ['k', squoteChar, 'y'], "main".data, false⟩
          ["HOME=/root".data]
        = ["HOME=/root".data,
            "GIT_SSH_COMMAND=".data
              ++ sshCommand ⟨"/tmp/repo".data, ['k', squoteChar, 'y'], "main".data, false⟩] := by
  have h := c1_shell_quoting_injection_safe
    ⟨"/tmp/repo".data, ['k', squoteChar, 'y'], "main".data, false⟩ ["HOME=/root".data]
  exact ⟨by simpa using h.1, by simpa using h.2 (by decide)⟩

/-- C9: getEnvWithSSH preserves the caller's environment as a frame: with an
empty key path it returns the environment unchanged (adding no
GIT_SSH_COMMAND entry); with a non-empty key path it appends exactly one
GIT_SSH_COMMAND entry, leaves every pre-existing entry unchanged, and the
StrictHostKeyChecking=no option appears among the command words iff
InsecureSkipHostKeyCheck is set. -/
theorem c9_getEnvWithSSH_frame (ga : LocalGitAdapter) (env : List GoStr) :
    (ga.SSHKeyPath = [] → getEnvWithSSH ga env = env)
    ∧ (ga.SSHKeyPath ≠ [] →
        getEnvWithSSH ga env = env ++ ["GIT_SSH_COMMAND=".data ++ sshCommand ga]
        ∧ (getEnvWithSSH ga env).take env.length = env
        ∧ (("-o".data ∈ sshCommandParts ga
              ∧ "StrictHostKeyChecking=no".data ∈ sshCommandParts ga)
            ↔ ga.InsecureSkipHostKeyCheck = true)) := by
  refine ⟨fun h => by simp [getEnvWithSSH, h], fun h => ⟨by simp [getEnvWithSSH, h], ?_, ?_⟩⟩
  · rw [getEnvWithSSH, if_neg h, List.take_left]
  · cases hflag : ga.InsecureSkipHostKeyCheck
    · constructor
      · rintro ⟨ho, -⟩
        rw [sshCommandParts, quotePathForShell_cons, if_neg (by simp [hflag])] at ho
        simp only [List.append_nil, List.mem_cons, List.not_mem_nil, or_false] at ho
        rcases ho with h1 | h1 | h1 | h1 | h1
        · exact absurd h1 (by decide)
        · exact absurd h1 (by decide)
        · simp only [List.cons.injEq] at h1
          exact absurd h1.1 (by decide)
        · exact absurd h1 (by decide)
        · exact absurd h1 (by decide)
      · intro hb
        exact absurd hb (by decide)
    · constructor
      · intro _
        rfl
      · intro _
        constructor <;> simp [sshCommandParts, hflag]

/-- Witness for C9 in both branches: empty key path, and a non-empty key
path with the insecure option enabled. -/
theorem c9_getEnvWithSSH_frame_witness :
    getEnvWithSSH ⟨"/tmp/repo".data, [], "main".data, true⟩ ["HOME=/root".data]
        = ["HOME=/root".data]
    ∧ getEnvWithSSH ⟨"/tmp/repo".data, "key".data, "main".data, true⟩ ["HOME=/root".data]
        = ["HOME=/root".data,
            "GIT_SSH_COMMAND=".data ++ sshCommand ⟨"/tmp/repo".data, "key".data, "main".data, true⟩]
    ∧ "StrictHostKeyChecking=no".data
        ∈ sshCommandParts ⟨"/tmp/repo".data, "key".data, "main".data, true⟩ := by
  refine ⟨(c9_getEnvWithSSH_frame ⟨"/tmp/repo".data, [], "main".data, true⟩
      ["HOME=/root".data]).1 rfl, ?_, ?_⟩
  · exact ((c9_getEnvWithSSH_frame ⟨"/tmp/repo".data, "key".data, "main".data, true⟩
      ["HOME=/root".data]).2 (by decide)).1
  · exact (((c9_getEnvWithSSH_frame ⟨"/tmp/repo".data, "key".data, "main".data, true⟩
      ["HOME=/root".data]).2 (by decide)).2.2.mpr rfl).2

/-! Configuration model and whitespace trimming (internal/config/config.go). -/

/-- Models Go unicode.IsSpace: the Latin-1 white space code points and the
Unicode space separators. -/
def goIsSpace (c : Char) : Bool :=
  [Char.ofNat 9, Char.ofNat 10, Char.ofNat 11, Char.ofNat 12, Char.ofNat 13, ' ',
    Char.ofNat 0x85, Char.ofNat 0xA0, Char.ofNat 0x1680, Char.ofNat 0x2000,
    Char.ofNat 0x2001, Char.ofNat 0x2002, Char.ofNat 0x2003, Char.ofNat 0x2004,
    Char.ofNat 0x2005, Char.ofNat 0x2006, Char.ofNat 0x2007, Char.ofNat 0x2008,
    Char.ofNat 0x2009, Char.ofNat 0x200A, Char.ofNat 0x2028, Char.ofNat 0x2029,
    Char.ofNat 0x202F, Char.ofNat 0x205F, Char.ofNat 0x3000].contains c

/-- Models Go strings.TrimSpace: removes leading and trailing characters
satisfying unicode.IsSpace. -/
def trimSpace (s : GoStr) : GoStr :=
  ((s.dropWhile goIsSpace).reverse.dropWhile goIsSpace).reverse

example : trimSpace "  a b ".data = "a b".data := by decide

/-- Source internal/config/config.go lines 11-21, config.ReviewConfig. -/
structure ReviewConfig where
  ReviewMode : GoStr
  GeminiModel : GoStr
  RepoURL : GoStr
  BaseBranch : GoStr
  FeatureBranch : GoStr
  SSHKeyPath : GoStr
  LocalPath : GoStr
  SkipHostKeyCheck : Bool
  UseExternalGitCommand : Bool
deriving DecidableEq

/-- Source config.go lines 35-41: the per-field trimming that Normalize
applies to a non-nil receiver. -/
def ReviewConfig.normalizeFields (rc : ReviewConfig) : ReviewConfig :=
  { rc with
    RepoURL := trimSpace rc.RepoURL
    BaseBranch := trimSpace rc.BaseBranch
    FeatureBranch := trimSpace rc.FeatureBranch
    LocalPath := trimSpace rc.LocalPath
    ReviewMode := trimSpace rc.ReviewMode
    GeminiModel := trimSpace rc.GeminiModel
    SSHKeyPath := trimSpace rc.SSHKeyPath }

/-- Source config.go lines 31-42, ReviewConfig.Normalize.  The Go pointer
receiver is modelled as an optional value: none is the nil receiver, for
which the method returns without doing anything. -/
def ReviewConfig.Normalize : Option ReviewConfig → Option ReviewConfig
  | none => none
  | some rc => some rc.normalizeFields

/-- Dropping a satisfied prefix is invariant under taking prefixes: a prefix
of a list that dropWhile leaves unchanged is itself left unchanged. -/
theorem dropWhile_prefix_invariant (p : Char → Bool) (l₁ l₂ : GoStr)
    (hpre : l₁ <+: l₂) (h : l₂.dropWhile p = l₂) : l₁.dropWhile p = l₁ := by
  cases l₁ with
  | nil => simp
  | cons a t =>
    have ha : ¬p a = true := by
      intro hpa
      obtain ⟨t₂, ht⟩ := hpre
      rw [← ht, List.cons_append, List.dropWhile_cons_of_pos hpa] at h
      have hle : ((t ++ t₂).dropWhile p).length ≤ (t ++ t₂).length :=
        (List.dropWhile_suffix p).length_le
      have hlen := congrArg List.length h
      rw [List.length_cons] at hlen
      omega
    simp [List.dropWhile_cons_of_neg ha]

/-- trimSpace leaves no leading space, so a further left trim is a no-op. -/
theorem trimSpace_leftclean (s : GoStr) :
    (trimSpace s).dropWhile goIsSpace = trimSpace s := by
  have hu : (s.dropWhile goIsSpace).dropWhile goIsSpace = s.dropWhile goIsSpace :=
    List.dropWhile_idempotent _ _
  have hsuf : (s.dropWhile goIsSpace).reverse.dropWhile goIsSpace
      <:+ (s.dropWhile goIsSpace).reverse := List.dropWhile_suffix _
  have hpre : trimSpace s <+: s.dropWhile goIsSpace := by
    have h2 := List.reverse_prefix.mpr hsuf
    simpa [trimSpace] using h2
  exact dropWhile_prefix_invariant _ _ _ hpre hu

/-- Go strings.TrimSpace is idempotent. -/
theorem trimSpace_idem (s : GoStr) : trimSpace (trimSpace s) = trimSpace s := by
  rw [show trimSpace (trimSpace s)
      = (((trimSpace s).dropWhile goIsSpace).reverse.dropWhile goIsSpace).reverse from rfl,
    trimSpace_leftclean]
  have hrev : (trimSpace s).reverse = (s.dropWhile goIsSpace).reverse.dropWhile goIsSpace := by
    simp [trimSpace]
  rw [hrev, List.dropWhile_idempotent]
  simp [trimSpace]

/-- C10: ReviewConfig.Normalize is idempotent (trimming every string field
twice equals trimming once) and is a safe no-op on a nil receiver. -/
theorem c10_normalize_idempotent_and_nil_safe (o : Option ReviewConfig) :
    ReviewConfig.Normalize (ReviewConfig.Normalize o) = ReviewConfig.Normalize o
    ∧ ReviewConfig.Normalize none = none := by
  refine ⟨?_, rfl⟩
  cases o with
  | none => rfl
  | some rc =>
    simp [ReviewConfig.Normalize, ReviewConfig.normalizeFields, trimSpace_idem]

/-! Git adapter operations (part_004).  The external git binary is modelled
as a function from the argument vector to either the combined output of the
process or an execution failure. -/

abbrev GitExec := List GoStr → Except GoStr GoStr

/-- Source part_004 lines 95-117, runGitCommand: runs git with the given
arguments and returns the whitespace-trimmed combined output; both exit
failures and launch failures surface as errors. -/
def runGitCommand (gitExec : GitExec) (args : List GoStr) : Except GoStr GoStr :=
  match gitExec args with
  | .ok output => .ok (trimSpace output)
  | .error e => .error e

/-- Structured errors of GetCodeDiff, one constructor per distinct
fmt.Errorf wrapping in the source, each carrying the offending ref or the
cause, so the error attributes which step failed. -/
inductive DiffError
  | baseRefNotResolved (ref : GoStr) (cause : GoStr)
  | featureRefNotResolved (ref : GoStr) (cause : GoStr)
  | diffFailed (cause : GoStr)
deriving DecidableEq

/-- Source part_004 lines 187-214, GetCodeDiff.  Besides the result it
returns the trace of git argument vectors issued, in order. -/
def GetCodeDiff (gitExec : GitExec) (baseBranch featureBranch : GoStr) :
    Except DiffError GoStr × List (List GoStr) :=
  let baseRef := "origin/".data ++ baseBranch
  let featureRef := "origin/".data ++ featureBranch
  let cmd1 := ["rev-parse".data, "--verify".data, baseRef]
  match runGitCommand gitExec cmd1 with
  | .error e => (.error (.baseRefNotResolved baseRef e), [cmd1])
  | .ok _ =>
    let cmd2 := ["rev-parse".data, "--verify".data, featureRef]
    match runGitCommand gitExec cmd2 with
    | .error e => (.error (.featureRefNotResolved featureRef e), [cmd1, cmd2])
    | .ok _ =>
      let cmd3 := ["diff".data, baseRef ++ "...".data ++ featureRef, "--unified=10".data]
      match runGitCommand gitExec cmd3 with
      | .error e => (.error (.diffFailed e), [cmd1, cmd2, cmd3])
      | .ok diffOutput => (.ok diffOutput, [cmd1, cmd2, cmd3])

/-- C7: GetCodeDiff verifies origin/base first, then origin/feature, and
each failure is attributed to its side; only when both resolve is the diff
command issued, and that command is the three-dot merge-base comparison
with unified context 10. -/
theorem c7_getCodeDiff_order_attribution_threedot (gitExec : GitExec)
    (baseBranch featureBranch : GoStr) :
    (∀ e, gitExec ["rev-parse".data, "--verify".data, "origin/".data ++ baseBranch] = .error e →
        GetCodeDiff gitExec baseBranch featureBranch
          = (.error (.baseRefNotResolved ("origin/".data ++ baseBranch) e),
              [["rev-parse".data, "--verify".data, "origin/".data ++ baseBranch]]))
    ∧ (∀ o1 e, gitExec ["rev-parse".data, "--verify".data, "origin/".data ++ baseBranch] = .ok o1 →
        gitExec ["rev-parse".data, "--verify".data, "origin/".data ++ featureBranch] = .error e →
        GetCodeDiff gitExec baseBranch featureBranch
          = (.error (.featureRefNotResolved ("origin/".data ++ featureBranch) e),
              [["rev-parse".data, "--verify".data, "origin/".data ++ baseBranch],
               ["rev-parse".data, "--verify".data, "origin/".data ++ featureBranch]]))
    ∧ (∀ o1 o2, gitExec ["rev-parse".data, "--verify".data, "origin/".data ++ baseBranch] = .ok o1 →
        gitExec ["rev-parse".data, "--verify".data, "origin/".data ++ featureBranch] = .ok o2 →
        (GetCodeDiff gitExec baseBranch featureBranch).2
            = [["rev-parse".data, "--verify".data, "origin/".data ++ baseBranch],
               ["rev-parse".data, "--verify".data, "origin/".data ++ featureBranch],
               ["diff".data,
                ("origin/".data ++ baseBranch) ++ "...".data ++ ("origin/".data ++ featureBranch),
                "--unified=10".data]]
          ∧ (∀ out, gitExec ["diff".data,
                ("origin/".data ++ baseBranch) ++ "...".data ++ ("origin/".data ++ featureBranch),
                "--unified=10".data] = .ok out →
              (GetCodeDiff gitExec baseBranch featureBranch).1 = .ok (trimSpace out))
          ∧ (∀ e, gitExec ["diff".data,
                ("origin/".data ++ baseBranch) ++ "...".data ++ ("origin/".data ++ featureBranch),
                "--unified=10".data] = .error e →
              (GetCodeDiff gitExec baseBranch featureBranch).1 = .error (.diffFailed e))) := by
  refine ⟨fun e h1 => ?_, fun o1 e h1 h2 => ?_, fun o1 o2 h1 h2 => ⟨?_, fun out h3 => ?_, fun e h3 => ?_⟩⟩
  · simp_all [GetCodeDiff, runGitCommand]
  · simp_all [GetCodeDiff, runGitCommand]
  all_goals cases h3 : gitExec ["diff".data,
      ("origin/".data ++ baseBranch) ++ "...".data ++ ("origin/".data ++ featureBranch),
      "--unified=10".data] <;>
    simp_all [GetCodeDiff, runGitCommand, List.append_assoc]

/-- Witness for C7: a git model on which both refs resolve and the diff
succeeds, yielding the full three-command trace. -/
theorem c7_getCodeDiff_order_attribution_threedot_witness :
    (GetCodeDiff (fun _ => .ok "out".data) "main".data "dev".data).2
        = [["rev-parse".data, "--verify".data, "origin/main".data],
           ["rev-parse".data, "--verify".data, "origin/dev".data],
           ["diff".data, "origin/main...origin/dev".data, "--unified=10".data]]
    ∧ (GetCodeDiff (fun _ => .ok "out".data) "main".data "dev".data).1 = .ok "out".data := by
  have h := (c7_getCodeDiff_order_attribution_threedot
    (fun _ => .ok "out".data) "main".data "dev".data).2.2 "out".data "out".data rfl rfl
  refine ⟨by simpa using h.1, ?_⟩
  have h2 := h.2.1 "out".data rfl
  simpa using h2

/-- Source part_004 lines 217-231, CheckRemoteBranchExists: an empty branch
name is an error; otherwise any failure of the verify call — whatever its
cause — yields (false, nil), and success yields (true, nil). -/
def CheckRemoteBranchExists (gitExec : GitExec) (branch : GoStr) : Except GoStr Bool :=
  if branch = [] then
    .error "リモートブランチの存在確認に失敗しました: ブランチ名が空です".data
  else
    match runGitCommand gitExec ["rev-parse".data, "--verify".data, "origin/".data ++ branch] with
    | .error _ => .ok false
    | .ok _ => .ok true

/-- C4 counterexample: a git model whose verify call fails with a broken-git
error (not ref absence) still produces (false, nil) — the probe does not
return a broken git/transport condition as an error, contrary to the claim. -/
theorem c4_broken_git_counterexample :
    CheckRemoteBranchExists
        (fun _ => .error "fatal: unable to access remote".data) "main".data
      = .ok false := by
  rfl

/-- C4 (amended): for every non-empty branch name CheckRemoteBranchExists
returns (false, nil) whenever the verify call on origin/branch fails — for
any reason, ref absence and broken git alike, undistinguished — and
(true, nil) when it succeeds; its only error return is the empty branch
name guard. -/
theorem c4_checkRemoteBranchExists_amended (gitExec : GitExec) (branch : GoStr) :
    (branch ≠ [] →
      ∀ e, gitExec ["rev-parse".data, "--verify".data, "origin/".data ++ branch] = .error e →
        CheckRemoteBranchExists gitExec branch = .ok false)
    ∧ (branch ≠ [] →
      ∀ o, gitExec ["rev-parse".data, "--verify".data, "origin/".data ++ branch] = .ok o →
        CheckRemoteBranchExists gitExec branch = .ok true)
    ∧ (branch = [] →
        CheckRemoteBranchExists gitExec branch
          = .error "リモートブランチの存在確認に失敗しました: ブランチ名が空です".data) := by
  refine ⟨fun hb e h => ?_, fun hb o h => ?_, fun hb => ?_⟩
  · simp_all [CheckRemoteBranchExists, runGitCommand]
  · simp_all [CheckRemoteBranchExists, runGitCommand]
  · simp [CheckRemoteBranchExists, hb]

/-- Witness for the amended C4: a concrete absent ref yields (false, nil)
and a concrete resolvable ref yields (true, nil). -/
theorem c4_checkRemoteBranchExists_amended_witness :
    CheckRemoteBranchExists (fun _ => .error "unknown revision".data) "dev".data = .ok false
    ∧ CheckRemoteBranchExists (fun _ => .ok "abc123".data) "dev".data = .ok true := by
  refine ⟨(c4_checkRemoteBranchExists_amended
      (fun _ => .error "unknown revision".data) "dev".data).1 (by decide)
        "unknown revision".data rfl, ?_⟩
  exact (c4_checkRemoteBranchExists_amended
      (fun _ => .ok "abc123".data) "dev".data).2.1 (by decide) "abc123".data rfl

/-! Filesystem model for CloneOrUpdate (part_004 lines 122-175). -/

/-- A filesystem entry: a regular file with its byte contents, or a
directory. -/
inductive FSEntry
  | file (content : GoStr)
  | dir
deriving DecidableEq

/-- The result of os.Stat at a path: an entry, not-exist, or an I/O error. -/
inductive StatRes
  | entry (e : FSEntry)
  | notExist
  | ioErr
deriving DecidableEq

/-- The filesystem visible to CloneOrUpdate, as a map from paths to stat
results.  An unchanged map models directory contents left byte-for-byte
unchanged. -/
structure FS where
  stat : GoStr → StatRes

/-- Models Go filepath.Base, simplified to paths without trailing slashes:
the segment after the last slash. -/
def filepathBase (p : GoStr) : GoStr :=
  (p.reverse.takeWhile (fun c => !(c == '/'))).reverse

/-- Models Go filepath.Dir, simplified to paths without trailing slashes:
everything before the last slash, or dot when there is no slash. -/
def filepathDir (p : GoStr) : GoStr :=
  match p.reverse.dropWhile (fun c => !(c == '/')) with
  | [] => ".".data
  | _ :: rest => rest.reverse

/-- Errors of CloneOrUpdate, one constructor per distinct fmt.Errorf in the
source. -/
inductive CloneError
  | notADirectory (path : GoStr)
  | notAGitRepo (path : GoStr)
  | gitDirStatFailed (path : GoStr)
  | mkdirFailed (cause : GoStr)
  | cloneFailed (output : GoStr)
  | statFailed (path : GoStr)
deriving DecidableEq

/-- Source part_004 lines 122-175, CloneOrUpdate.  The two filesystem
mutators the source can invoke — os.MkdirAll on the parent directory and
the external git clone subprocess — are passed as explicit functions
returning the new filesystem and an optional failure; every other branch
only inspects the filesystem.  The dot-git probe is os.Stat on
filepath.Join(localPath, ".git"). -/
def CloneOrUpdate (ga : LocalGitAdapter)
    (mkdirAll : FS → GoStr → FS × Option GoStr)
    (gitClone : FS → GoStr → GoStr → GoStr → FS × Option GoStr)
    (fs : FS) (repositoryURL : GoStr) : FS × Option CloneError :=
  match fs.stat ga.LocalPath with
  | .entry (.file _) => (fs, some (.notADirectory ga.LocalPath))
  | .entry .dir =>
    match fs.stat (ga.LocalPath ++ "/.git".data) with
    | .notExist => (fs, some (.notAGitRepo ga.LocalPath))
    | .ioErr => (fs, some (.gitDirStatFailed ga.LocalPath))
    | .entry _ => (fs, none)
  | .notExist =>
    let parentDir := filepathDir ga.LocalPath
    let repoDir := filepathBase ga.LocalPath
    let step1 :=
      if fs.stat parentDir = .notExist then mkdirAll fs parentDir else (fs, none)
    match step1.2 with
    | some e => (step1.1, some (.mkdirFailed e))
    | none =>
      let step2 := gitClone step1.1 parentDir repositoryURL repoDir
      match step2.2 with
      | some output => (step2.1, some (.cloneFailed output))
      | none => (step2.1, none)
  | .ioErr => (fs, some (.statFailed ga.LocalPath))

/-- C3: in state PresentNotAGitRepo — the local path is a directory with no
dot-git entry, or exists and is not a directory — CloneOrUpdate returns an
error and the filesystem is returned unchanged, for every possible
behaviour of the mutating operations. -/
theorem c3_cloneOrUpdate_notAGitRepo_no_mutation
    (ga : LocalGitAdapter) (mkdirAll : FS → GoStr → FS × Option GoStr)
    (gitClone : FS → GoStr → GoStr → GoStr → FS × Option GoStr)
    (fs : FS) (repositoryURL : GoStr)
    (h : (∃ c, fs.stat ga.LocalPath = .entry (.file c))
        ∨ (fs.stat ga.LocalPath = .entry .dir
            ∧ fs.stat (ga.LocalPath ++ "/.git".data) = .notExist)) :
    (CloneOrUpdate ga mkdirAll gitClone fs repositoryURL).1 = fs
    ∧ (CloneOrUpdate ga mkdirAll gitClone fs repositoryURL).2.isSome = true := by
  rcases h with ⟨c, hc⟩ | ⟨h1, h2⟩
  · simp [CloneOrUpdate, hc]
  · simp [CloneOrUpdate, h1, h2]

/-- A concrete filesystem in which /tmp/repo is a directory with one plain
file inside and no dot-git entry. -/
def fsNotAGitRepo : FS :=
  ⟨fun p =>
    if p = "/tmp/repo".data then .entry .dir
    else if p = "/tmp/repo/data.txt".data then .entry (.file "payload".data)
    else .notExist⟩

/-- Witness for C3: on the concrete non-repository directory the call errors
and the filesystem is returned unchanged. -/
theorem c3_cloneOrUpdate_notAGitRepo_no_mutation_witness :
    (CloneOrUpdate ⟨"/tmp/repo".data, [], "main".data, false⟩
          (fun fs _ => (fs, none)) (fun fs _ _ _ => (fs, none)) fsNotAGitRepo
          "https://example.com/o/r.git".data).1
        = fsNotAGitRepo
    ∧ (CloneOrUpdate ⟨"/tmp/repo".data, [], "main".data, false⟩
          (fun fs _ => (fs, none)) (fun fs _ _ _ => (fs, none)) fsNotAGitRepo
          "https://example.com/o/r.git".data).2.isSome = true :=
  c3_cloneOrUpdate_notAGitRepo_no_mutation _ _ _ _ _
    (Or.inr ⟨by decide, by decide⟩)

/-! Publish runner (src/unnamed/part_002): storage write, public-URL
resolution, best-effort Slack notification. -/

/-- Models Go strings.TrimPrefix: removes pre when it is a prefix of s,
otherwise returns s unchanged. -/
def goTrimPrefixFn (s pre : GoStr) : GoStr :=
  if pre.isPrefixOf s then s.drop pre.length else s

/-- Models Go strings.SplitN(s, slash, 2) combined with the bucket/key
extraction of convertS3URIToPublicURL: the part before the first slash and
the part after it; the key defaults to the empty string when there is no
slash, exactly as objectKey does in the source. -/
def splitBucketKey : GoStr → GoStr × GoStr
  | [] => ([], [])
  | c :: cs =>
    if c = '/' then ([], cs)
    else
      let p := splitBucketKey cs
      (c :: p.1, p.2)

/-- Modelled from the spec: remoteio.IsGCSURI is an external collaborator;
scheme detection is purely syntactic, a URI-prefix test for the gs scheme. -/
def isGCSURI (uri : GoStr) : Bool := "gs://".data.isPrefixOf uri

/-- Modelled from the spec: remoteio.IsS3URI, a URI-prefix test for the s3
scheme. -/
def isS3URI (uri : GoStr) : Bool := "s3://".data.isPrefixOf uri

/-- Source part_002 lines 129-142, convertS3URIToPublicURL. -/
def convertS3URIToPublicURL (s3URI region : GoStr) : GoStr :=
  let processedURI := goTrimPrefixFn s3URI "s3://".data
  let parts := splitBucketKey processedURI
  "https://".data ++ parts.1 ++ ".s3.".data ++ region ++ ".amazonaws.com/".data ++ parts.2

/-- Source part_002 lines 91-125, getPublicURL.  The urlSigner field of
CorePublisherRunner is an optional signing function (none models a nil Go
interface); the AWS_REGION environment variable is passed explicitly, the
empty string meaning unset, mirroring os.Getenv. -/
def getPublicURL (urlSigner : Option (GoStr → Except GoStr GoStr))
    (awsRegion : GoStr) (storageURI : GoStr) : Except GoStr GoStr :=
  if isGCSURI storageURI then
    match urlSigner with
    | none => .error "GCS URIが指定されましたが、URL Signerがnilです。".data
    | some sign =>
      match sign storageURI with
      | .error e => .error ("GCS 署名付きURLの生成に失敗しました: ".data ++ e)
      | .ok signedURL => .ok signedURL
  else if isS3URI storageURI then
    let region := if awsRegion = [] then "ap-northeast-1".data else awsRegion
    .ok (convertS3URIToPublicURL storageURI region)
  else
    .ok storageURI

example : convertS3URIToPublicURL "s3://bucket/key/path.html".data "ap-northeast-1".data
    = "https://bucket.s3.ap-northeast-1.amazonaws.com/key/path.html".data := by decide

/-- Removing a literal prefix that is present yields the remainder. -/
theorem goTrimPrefixFn_append (pre x : GoStr) : goTrimPrefixFn (pre ++ x) pre = x := by
  rw [goTrimPrefixFn, if_pos ((List.isPrefixOf_iff_prefix).mpr (List.prefix_append pre x))]
  exact List.drop_left pre x

/-- Splitting at the first slash recovers bucket and key when the bucket is
slash-free. -/
theorem splitBucketKey_append (bucket key : GoStr) (hb : '/' ∉ bucket) :
    splitBucketKey (bucket ++ '/' :: key) = (bucket, key) := by
  induction bucket with
  | nil => simp [splitBucketKey]
  | cons c cs ih =>
    simp only [List.mem_cons, not_or] at hb
    have hc : ¬c = '/' := fun h => hb.1 h.symm
    simp [splitBucketKey, hc, ih hb.2]

/-- Every string with the s3 scheme prefix is an S3 URI. -/
theorem isS3URI_cons (x : GoStr) : isS3URI ('s' :: '3' :: ':' :: '/' :: '/' :: x) = true := by
  simp [isS3URI, List.isPrefixOf]

/-- No string with the s3 scheme prefix is a GCS URI. -/
theorem isGCSURI_s3cons (x : GoStr) : isGCSURI ('s' :: '3' :: ':' :: '/' :: '/' :: x) = false := by
  simp [isGCSURI, List.isPrefixOf]

/-- Removing the s3 scheme prefix from a string that carries it. -/
theorem goTrimPrefixS3 (x : GoStr) :
    goTrimPrefixFn ('s' :: '3' :: ':' :: '/' :: '/' :: x) ['s', '3', ':', '/', '/'] = x := by
  simpa using goTrimPrefixFn_append "s3://".data x

/-- General S3 resolution shape of getPublicURL. -/
theorem getPublicURL_s3_general (urlSigner : Option (GoStr → Except GoStr GoStr))
    (awsRegion bucket key : GoStr) (hb : '/' ∉ bucket) :
    getPublicURL urlSigner awsRegion ("s3://".data ++ bucket ++ "/".data ++ key)
      = .ok ("https://".data ++ bucket ++ ".s3.".data
          ++ (if awsRegion = [] then "ap-northeast-1".data else awsRegion)
          ++ ".amazonaws.com/".data ++ key) := by
  have hshape : "s3://".data ++ bucket ++ "/".data ++ key
      = "s3://".data ++ (bucket ++ '/' :: key) := by simp
  rw [hshape]
  simp only [getPublicURL, convertS3URIToPublicURL, List.cons_append]
  simp only [isGCSURI_s3cons, isS3URI_cons, Bool.false_eq_true, if_false, if_true,
    goTrimPrefixS3, List.nil_append]
  rw [splitBucketKey_append bucket key hb]

/-- C5: S3-scheme URIs resolve to the virtual-hosted style URL with the
region from AWS_REGION when set and the fixed default ap-northeast-1
otherwise — in particular the concrete example from the spec — and a URI
that is neither GCS- nor S3-scheme passes through unchanged. -/
theorem c5_getPublicURL_resolution (urlSigner : Option (GoStr → Except GoStr GoStr))
    (awsRegion : GoStr) :
    (∀ bucket key : GoStr, '/' ∉ bucket →
      getPublicURL urlSigner awsRegion ("s3://".data ++ bucket ++ "/".data ++ key)
        = .ok ("https://".data ++ bucket ++ ".s3.".data
            ++ (if awsRegion = [] then "ap-northeast-1".data else awsRegion)
            ++ ".amazonaws.com/".data ++ key))
    ∧ getPublicURL urlSigner [] "s3://bucket/key/path.html".data
        = .ok "https://bucket.s3.ap-northeast-1.amazonaws.com/key/path.html".data
    ∧ (∀ uri, isGCSURI uri = false → isS3URI uri = false →
        getPublicURL urlSigner awsRegion uri = .ok uri)
    ∧ getPublicURL urlSigner awsRegion "file:///tmp/x".data = .ok "file:///tmp/x".data := by
  refine ⟨fun bucket key hb => getPublicURL_s3_general urlSigner awsRegion bucket key hb,
    ?_, fun uri h1 h2 => by simp [getPublicURL, h1, h2], ?_⟩
  · have h := getPublicURL_s3_general urlSigner [] "bucket".data "key/path.html".data (by decide)
    rw [show "s3://bucket/key/path.html".data
        = "s3://".data ++ "bucket".data ++ "/".data ++ "key/path.html".data from by decide, h]
    rfl
  · simp [getPublicURL, show isGCSURI "file:///tmp/x".data = false from by decide,
      show isS3URI "file:///tmp/x".data = false from by decide]

/-- Witness for C5: S3 resolution at a concrete bucket and key with the
region unset, and passthrough of the file scheme. -/
theorem c5_getPublicURL_resolution_witness :
    getPublicURL none [] "s3://bucket/key/path.html".data
        = .ok "https://bucket.s3.ap-northeast-1.amazonaws.com/key/path.html".data
    ∧ getPublicURL none "us-east-1".data "file:///tmp/x".data = .ok "file:///tmp/x".data :=
  ⟨(c5_getPublicURL_resolution none []).2.1,
    (c5_getPublicURL_resolution none "us-east-1".data).2.2.2⟩

/-- Source internal/config/config.go lines 23-28, config.PublishConfig.
The HttpClient field is an opaque external collaborator never consulted by
the modelled code and is elided. -/
structure PublishConfig where
  reviewConfig : ReviewConfig
  StorageURI : GoStr
  SlackWebhookURL : GoStr

/-- The publisher.ReviewData payload of the external core library, as
filled in by createReviewData. -/
structure ReviewData where
  RepoURL : GoStr
  BaseBranch : GoStr
  FeatureBranch : GoStr
  ReviewMarkdown : GoStr
deriving DecidableEq

/-- Source part_002 lines 145-152, createReviewData. -/
def createReviewData (reviewConfig : ReviewConfig) (reviewResult : GoStr) : ReviewData :=
  { RepoURL := reviewConfig.RepoURL
    BaseBranch := reviewConfig.BaseBranch
    FeatureBranch := reviewConfig.FeatureBranch
    ReviewMarkdown := reviewResult }

/-- Source part_002 lines 72-80, publishToStorage.  The storage writer
(publisher.Publisher.Publish, an injected dependency) is the writerPublish
parameter; a failure is wrapped with the URI. -/
def publishToStorage (writerPublish : GoStr → ReviewData → Except GoStr Unit)
    (cfg : PublishConfig) (reviewResult : GoStr) : Option GoStr :=
  match writerPublish cfg.StorageURI (createReviewData cfg.reviewConfig reviewResult) with
  | .error e =>
    some ("ストレージへの書き込みに失敗しました (URI: ".data ++ cfg.StorageURI
      ++ "): ".data ++ e)
  | .ok _ => none

/-- Source part_002 lines 83-88, notifyToSlack.  The injected Slack
notifier is the notify parameter; its outcome is consumed entirely — a
failure produces only the error-level log line, which the model returns so
that it stays observable, and is never propagated to the caller. -/
def notifyToSlack (notify : GoStr → PublishConfig → Except GoStr Unit)
    (publicURL : GoStr) (cfg : PublishConfig) : Option GoStr :=
  match notify publicURL cfg with
  | .error e =>
    some ("Slack通知の実行中にエラーが発生しましたが、アップロードは成功しているため処理を続行します。".data ++ e)
  | .ok _ => none

/-- Source part_002 lines 48-67, CorePublisherRunner.Run: upload to
storage, resolve the public URL falling back to the raw storage URI on
failure, then notify Slack best-effort; the returned error depends only on
the upload step. -/
def CorePublisherRunner.Run
    (writerPublish : GoStr → ReviewData → Except GoStr Unit)
    (urlSigner : Option (GoStr → Except GoStr GoStr))
    (notify : GoStr → PublishConfig → Except GoStr Unit)
    (awsRegion : GoStr) (cfg : PublishConfig) (reviewResult : GoStr) : Option GoStr :=
  match publishToStorage writerPublish cfg reviewResult with
  | some e => some e
  | none =>
    let publicURL :=
      match getPublicURL urlSigner awsRegion cfg.StorageURI with
      | .error _ => cfg.StorageURI
      | .ok u => u
    let _log := notifyToSlack notify publicURL cfg
    none

/-- C2: whenever the storage write succeeds, Run returns nil for every
behaviour of the notification step (Slack client construction or delivery
failures included) and of the URL signer: a notification failure never
converts the successful publish into an error. -/
theorem c2_run_nil_despite_notification_failure
    (writerPublish : GoStr → ReviewData → Except GoStr Unit)
    (urlSigner : Option (GoStr → Except GoStr GoStr))
    (notify : GoStr → PublishConfig → Except GoStr Unit)
    (awsRegion : GoStr) (cfg : PublishConfig) (reviewResult : GoStr)
    (hw : writerPublish cfg.StorageURI (createReviewData cfg.reviewConfig reviewResult)
        = .ok ()) :
    CorePublisherRunner.Run writerPublish urlSigner notify awsRegion cfg reviewResult
      = none := by
  simp [CorePublisherRunner.Run, publishToStorage, hw]

/-- Witness for C2: a successful write combined with a notifier that always
fails and a signer that always fails still returns nil. -/
theorem c2_run_nil_despite_notification_failure_witness :
    CorePublisherRunner.Run (fun _ _ => .ok ())
        (some (fun _ => .error "signer down".data))
        (fun _ _ => .error "slack down".data) []
        ⟨⟨"detail".data, "m".data, "u".data, "main".data, "dev".data, [], [], false, false⟩,
          "s3://bucket/key".data, "https://hooks.example".data⟩
        "review".data
      = none :=
  c2_run_nil_despite_notification_failure _ _ _ _ _ _ rfl

/-! Review pipeline (src/internal/pipeline/pipeline.go).  The builder and
runner collaborators are passed as outcome parameters. -/

/-- The error value returned by Review.  The sentinel ErrSkipReview is its
own constructor, so the errors.Is test in ReviewAndPublish is a
constructor match; construction and run failures carry their messages. -/
inductive ReviewError
  | skipReview
  | buildFailed (cause : GoStr)
  | runFailed (cause : GoStr)
deriving DecidableEq

/-- Source pipeline.go lines 18-42, Review.  buildOutcome is the outcome of
builder.BuildReviewRunner, runOutcome the outcome of reviewRunner.Run; an
empty run result becomes the skip sentinel. -/
def Review (buildOutcome : Except GoStr Unit) (runOutcome : Except GoStr GoStr) :
    Except ReviewError GoStr :=
  match buildOutcome with
  | .error e => .error (.buildFailed ("レビュー実行器の構築に失敗しました: ".data ++ e))
  | .ok _ =>
    match runOutcome with
    | .error e => .error (.runFailed e)
    | .ok reviewResult =>
      if reviewResult = [] then .error .skipReview
      else .ok reviewResult

/-- Source pipeline.go lines 45-62, Publish.  buildOutcome is the outcome
of builder.BuildPublishRunner; runPublish is the injected runner's Run
applied to the review result. -/
def Publish (buildOutcome : Except GoStr Unit) (runPublish : GoStr → Option GoStr)
    (reviewResult : GoStr) : Option GoStr :=
  match buildOutcome with
  | .error e => some ("PublishRunnerの構築に失敗しました: ".data ++ e)
  | .ok _ =>
    match runPublish reviewResult with
    | some e => some ("公開処理の実行に失敗しました: ".data ++ e)
    | none => none

/-- Source pipeline.go lines 66-87, ReviewAndPublish: a skip error from
Review short-circuits to a nil return before the publish stage; other
review errors and publish errors are wrapped and returned. -/
def ReviewAndPublish (buildReview : Except GoStr Unit) (runReview : Except GoStr GoStr)
    (buildPublish : Except GoStr Unit) (runPublish : GoStr → Option GoStr) : Option GoStr :=
  match Review buildReview runReview with
  | .error .skipReview => none
  | .error (.buildFailed e) => some ("レビューパイプラインの実行に失敗: ".data ++ e)
  | .error (.runFailed e) => some ("レビューパイプラインの実行に失敗: ".data ++ e)
  | .ok reviewResult =>
    match Publish buildPublish runPublish reviewResult with
    | some e => some ("公開パイプラインの実行に失敗: ".data ++ e)
    | none => none

/-- C6: when the computed diff — and hence the review result — is the empty
string, Review yields the skip sentinel and ReviewAndPublish returns nil,
whatever the publish stage would do: the publish step is skipped and an
empty diff is a non-error, no-op outcome. -/
theorem c6_empty_diff_skips_publish_returns_nil
    (buildPublish : Except GoStr Unit) (runPublish : GoStr → Option GoStr) :
    Review (.ok ()) (.ok []) = .error .skipReview
    ∧ ReviewAndPublish (.ok ()) (.ok []) buildPublish runPublish = none := by
  constructor <;> rfl

/-! Repository path extraction for the Slack notification
(src/internal/adapters/slack_adapter.go lines 126-145). -/

/-- ASCII control characters, which Go net/url.Parse rejects anywhere in a
URL. -/
def isCtlChar (c : Char) : Bool := c.toNat < 32 || c.toNat == 127

/-- Models Go strings.Index for a single-character pattern: the index of
the first occurrence, none when absent. -/
def idxOfChar (t : Char) : GoStr → Option Nat
  | [] => none
  | c :: cs => if c = t then some 0 else (idxOfChar t cs).map (· + 1)

/-- Source slack_adapter.go lines 128-132: rewrite an SSH-style remote
(git@host:path) into a parseable ssh URL by prepending the scheme and
replacing the first colon by a slash; other inputs pass through. -/
def sshRewrite (repoURL : GoStr) : GoStr :=
  if "git@".data.isPrefixOf repoURL then
    match idxOfChar ':' repoURL with
    | some idx => "ssh://".data ++ repoURL.take idx ++ "/".data ++ repoURL.drop (idx + 1)
    | none => repoURL
  else repoURL

/-- Splits a string at the first scheme separator (a colon followed by two
slashes), returning the parts before and after it. -/
def splitSchemeSep : GoStr → Option (GoStr × GoStr)
  | [] => none
  | c :: cs =>
    if c = ':' ∧ "//".data.isPrefixOf cs then some ([], cs.drop 2)
    else (splitSchemeSep cs).map (fun p => (c :: p.1, p.2))

/-- Modelled from the spec: Go net/url.Parse as used by getRepositoryPath,
an external collaborator.  The model covers exactly the behaviour the
adapter relies on: parsing fails when the URL contains an ASCII control
character; for scheme://authority/path URLs the path component starts at
the first slash after the authority (empty when there is none); a URL
without a scheme separator keeps the whole string as its path. -/
def urlParsePath (s : GoStr) : Option GoStr :=
  if s.any isCtlChar then none
  else
    match splitSchemeSep s with
    | some (_, rest) =>
      match idxOfChar '/' rest with
      | some j => some (rest.drop j)
      | none => some []
    | none => some s

/-- Models Go strings.TrimSuffix: removes suf when it is a suffix of s,
otherwise returns s unchanged. -/
def goTrimSuffixFn (s suf : GoStr) : GoStr :=
  if suf.isSuffixOf s then s.take (s.length - suf.length) else s

/-- Source slack_adapter.go lines 126-145, getRepositoryPath: rewrite an
SSH-style remote, parse it, and on success strip the leading slash and the
trailing .git from the path; on parse failure return the URL that was
handed to the parser. -/
def getRepositoryPath (repoURL : GoStr) : GoStr :=
  let rewritten := sshRewrite repoURL
  match urlParsePath rewritten with
  | none => rewritten
  | some path =>
    goTrimSuffixFn (goTrimPrefixFn path "/".data) ".git".data

example : getRepositoryPath "git@example.com:ORG/repo.git".data = "ORG/repo".data := by decide

example : getRepositoryPath "https://example.com/ORG/repo.git".data = "ORG/repo".data := by
  decide

/-- C8 counterexample: a git@-style remote containing a control character
fails to parse, and getRepositoryPath then returns the ssh rewritten
string, not the raw input: the raw input has no ssh:// prefix, so the two
differ. -/
theorem c8_parse_failure_counterexample :
    urlParsePath (sshRewrite ("git@exa".data ++ Char.ofNat 1 :: "mple.com:ORG/repo.git".data))
        = none
    ∧ getRepositoryPath ("git@exa".data ++ Char.ofNat 1 :: "mple.com:ORG/repo.git".data)
        = "ssh://git@exa".data ++ Char.ofNat 1 :: "mple.com/ORG/repo.git".data
    ∧ getRepositoryPath ("git@exa".data ++ Char.ofNat 1 :: "mple.com:ORG/repo.git".data)
        ≠ "git@exa".data ++ Char.ofNat 1 :: "mple.com:ORG/repo.git".data := by
  refine ⟨by decide, by decide, by decide⟩

/-- The first occurrence of a character sits right after a run that avoids
it. -/
theorem idxOfChar_append (t : Char) (pre rest : GoStr) (h : ¬t ∈ pre) :
    idxOfChar t (pre ++ t :: rest) = some pre.length := by
  induction pre with
  | nil => simp [idxOfChar]
  | cons c cs ih =>
    simp only [List.mem_cons, not_or] at h
    have hc : ¬c = t := fun hh => h.1 hh.symm
    simp [idxOfChar, hc, ih h.2]

/-- Dropping one past a slash-free run of known length lands after the
separator. -/
theorem drop_append_succ (pre tail : GoStr) (c : Char) :
    (pre ++ c :: tail).drop (pre.length + 1) = tail := by
  induction pre with
  | nil => simp
  | cons a as ih =>
    rw [List.cons_append, List.length_cons]
    simp only [List.drop_succ_cons]
    exact ih

/-- sshRewrite on an SSH-style remote whose host part is colon-free. -/
theorem sshRewrite_ssh_form (host tail : GoStr) (hc : ':' ∉ host) :
    sshRewrite ("git@".data ++ (host ++ ':' :: tail))
      = 's' :: 's' :: 'h' :: ':' :: '/' :: '/' :: (("git@".data ++ host) ++ '/' :: tail) := by
  have h4 : ':' ∉ ("git@".data ++ host) := by
    intro hmem
    rcases List.mem_append.mp hmem with h | h
    · exact absurd h (by decide)
    · exact hc h
  have heq : "git@".data ++ (host ++ ':' :: tail) = ("git@".data ++ host) ++ ':' :: tail := by
    simp
  have hidx : idxOfChar ':' ("git@".data ++ (host ++ ':' :: tail))
      = some ("git@".data ++ host).length := by
    rw [heq]
    exact idxOfChar_append ':' ("git@".data ++ host) tail h4
  have htake : ("git@".data ++ (host ++ ':' :: tail)).take ("git@".data ++ host).length
      = "git@".data ++ host := by
    rw [heq]
    exact List.take_left _ _
  have hdrop : ("git@".data ++ (host ++ ':' :: tail)).drop (("git@".data ++ host).length + 1)
      = tail := by
    rw [heq]
    exact drop_append_succ _ _ _
  rw [sshRewrite, if_pos ((List.isPrefixOf_iff_prefix).mpr (List.prefix_append _ _)), hidx]
  dsimp only []
  rw [htake, hdrop]
  simp

/-- sshRewrite leaves an https remote unchanged. -/
theorem sshRewrite_noop_https (x : GoStr) :
    sshRewrite ("https://".data ++ x) = "https://".data ++ x := by
  rw [sshRewrite, if_neg (by simp [List.isPrefixOf])]

/-- splitSchemeSep finds the ssh scheme separator. -/
theorem splitSchemeSep_ssh (rest0 : GoStr) :
    splitSchemeSep ('s' :: 's' :: 'h' :: ':' :: '/' :: '/' :: rest0)
      = some ("ssh".data, rest0) := by
  simp [splitSchemeSep, List.isPrefixOf, List.drop]

/-- splitSchemeSep finds the https scheme separator. -/
theorem splitSchemeSep_https (rest0 : GoStr) :
    splitSchemeSep ('h' :: 't' :: 't' :: 'p' :: 's' :: ':' :: '/' :: '/' :: rest0)
      = some ("https".data, rest0) := by
  simp [splitSchemeSep, List.isPrefixOf, List.drop]

/-- urlParsePath on ssh://authority/path with a slash-free, control-free
authority yields the path from its leading slash. -/
theorem urlParsePath_ssh (auth tail : GoStr) (hna : '/' ∉ auth)
    (h1 : auth.any isCtlChar = false) (h2 : tail.any isCtlChar = false) :
    urlParsePath ('s' :: 's' :: 'h' :: ':' :: '/' :: '/' :: (auth ++ '/' :: tail))
      = some ('/' :: tail) := by
  have hany : ('s' :: 's' :: 'h' :: ':' :: '/' :: '/' :: (auth ++ '/' :: tail)).any isCtlChar
      = false := by
    simp only [List.any_cons, List.any_append, h1, h2, Bool.or_false, Bool.false_or]
    decide
  rw [urlParsePath, if_neg (by simp [hany]), splitSchemeSep_ssh]
  dsimp only []
  rw [idxOfChar_append '/' auth tail hna]
  dsimp only []
  rw [List.drop_left]

/-- urlParsePath on https://authority/path with a slash-free, control-free
authority yields the path from its leading slash. -/
theorem urlParsePath_https (auth tail : GoStr) (hna : '/' ∉ auth)
    (h1 : auth.any isCtlChar = false) (h2 : tail.any isCtlChar = false) :
    urlParsePath ('h' :: 't' :: 't' :: 'p' :: 's' :: ':' :: '/' :: '/' :: (auth ++ '/' :: tail))
      = some ('/' :: tail) := by
  have hany : ('h' :: 't' :: 't' :: 'p' :: 's' :: ':' :: '/' :: '/'
        :: (auth ++ '/' :: tail)).any isCtlChar = false := by
    simp only [List.any_cons, List.any_append, h1, h2, Bool.or_false, Bool.false_or]
    decide
  rw [urlParsePath, if_neg (by simp [hany]), splitSchemeSep_https]
  dsimp only []
  rw [idxOfChar_append '/' auth tail hna]
  dsimp only []
  rw [List.drop_left]

/-- Stripping the leading slash of a path. -/
theorem goTrimPrefixSlash (x : GoStr) : goTrimPrefixFn ('/' :: x) "/".data = x :=
  goTrimPrefixFn_append "/".data x

/-- Stripping a trailing .git suffix. -/
theorem goTrimSuffixGit (x : GoStr) :
    goTrimSuffixFn (x ++ ".git".data) ".git".data = x := by
  have hsuf : ".git".data.isSuffixOf (x ++ ".git".data) = true :=
    List.isSuffixOf_iff_suffix.mpr (List.suffix_append _ _)
  rw [goTrimSuffixFn, if_pos hsuf]
  have hlen : (x ++ ".git".data).length - ".git".data.length = x.length := by simp
  rw [hlen, List.take_left]

/-- C8 (amended): SSH-style remotes git@host:owner/repo.git and URL-style
remotes https://host/owner/repo.git both map to owner/repo with the
trailing .git stripped; when the URL handed to the parser fails to parse,
getRepositoryPath returns that URL rather than failing — which is the raw
input for URL-style remotes but the ssh-rewritten form for git@-style
remotes. -/
theorem c8_getRepositoryPath_amended :
    (∀ host owner repo : GoStr,
      ':' ∉ host → '/' ∉ host →
      host.any isCtlChar = false → owner.any isCtlChar = false →
      repo.any isCtlChar = false →
      getRepositoryPath
          ("git@".data ++ (host ++ ':' :: (owner ++ '/' :: (repo ++ ".git".data))))
        = owner ++ '/' :: repo)
    ∧ (∀ host rest : GoStr,
      '/' ∉ host → host.any isCtlChar = false → rest.any isCtlChar = false →
      getRepositoryPath ("https://".data ++ (host ++ '/' :: (rest ++ ".git".data)))
        = rest)
    ∧ (∀ repoURL : GoStr, urlParsePath (sshRewrite repoURL) = none →
        getRepositoryPath repoURL = sshRewrite repoURL) := by
  refine ⟨fun host owner repo hc hs hctl1 hctl2 hctl3 => ?_,
    fun host rest hs hctl1 hctl2 => ?_, fun repoURL h => by simp [getRepositoryPath, h]⟩
  · have hna : '/' ∉ ("git@".data ++ host) := by
      intro hmem
      rcases List.mem_append.mp hmem with h | h
      · exact absurd h (by decide)
      · exact hs h
    have hca : ("git@".data ++ host).any isCtlChar = false := by
      rw [List.any_append, hctl1, Bool.or_false]
      decide
    have hct : (owner ++ '/' :: (repo ++ ".git".data)).any isCtlChar = false := by
      have hsh : owner ++ '/' :: (repo ++ ".git".data)
          = owner ++ ['/'] ++ (repo ++ ".git".data) := by simp
      rw [hsh, List.any_append, List.any_append, List.any_append, hctl2, hctl3]
      decide
    have hrw := sshRewrite_ssh_form host (owner ++ '/' :: (repo ++ ".git".data)) hc
    rw [getRepositoryPath, hrw]
    dsimp only []
    rw [urlParsePath_ssh ("git@".data ++ host) (owner ++ '/' :: (repo ++ ".git".data))
      hna hca hct]
    dsimp only []
    rw [goTrimPrefixSlash]
    have hshape : owner ++ '/' :: (repo ++ ".git".data)
        = (owner ++ '/' :: repo) ++ ".git".data := by simp
    rw [hshape, goTrimSuffixGit]
  · have hct : (rest ++ ".git".data).any isCtlChar = false := by
      rw [List.any_append, hctl2]
      decide
    rw [getRepositoryPath, sshRewrite_noop_https]
    dsimp only []
    rw [show "https://".data ++ (host ++ '/' :: (rest ++ ".git".data))
        = 'h' :: 't' :: 't' :: 'p' :: 's' :: ':' :: '/' :: '/'
            :: (host ++ '/' :: (rest ++ ".git".data)) from rfl]
    rw [urlParsePath_https host (rest ++ ".git".data) hs hctl1 hct]
    dsimp only []
    rw [goTrimPrefixSlash, goTrimSuffixGit]

/-- Witness for the amended C8 at the concrete remotes from the spec. -/
theorem c8_getRepositoryPath_amended_witness :
    getRepositoryPath "git@example.com:ORG/repo.git".data = "ORG/repo".data
    ∧ getRepositoryPath "https://example.com/ORG/repo.git".data = "ORG/repo".data := by
  constructor
  · have h1 := c8_getRepositoryPath_amended.1 "example.com".data "ORG".data "repo".data
      (by decide) (by decide) (by decide) (by decide) (by decide)
    rw [show "git@example.com:ORG/repo.git".data
        = "git@".data ++ ("example.com".data ++ ':'
            :: ("ORG".data ++ '/' :: ("repo".data ++ ".git".data))) from by decide, h1]
    decide
  · have h2 := c8_getRepositoryPath_amended.2.1 "example.com".data "ORG/repo".data
      (by decide) (by decide) (by decide)
    rw [show "https://example.com/ORG/repo.git".data
        = "https://".data ++ ("example.com".data ++ '/'
            :: ("ORG/repo".data ++ ".git".data)) from by decide, h2]
